import Mathlib

/-!
Verification development for the swaggest/jsonrpc request dispatch engine
(handler.go).  The Go code is shallowly embedded: the handler state, the
method registry, the dispatcher (invoke / decode / encode / errResp), the
single-request path of ServeHTTP and the batch coordinator (serveBatch) are
translated into executable Lean definitions.  Side effects that matter to the
specification (method lookup, business-logic invocation, the failing-use-case
pass-through) are recorded in an explicit event trace; the goroutine
bookkeeping of serveBatch (sync.WaitGroup) is modelled by counting Add and
Done calls.
-/

namespace Jsonrpc

/-- A JSON value, to the extent the dispatch engine inspects one.  The engine
treats params / result payloads as opaque raw bytes (json.RawMessage) handed
to type-specific decoders, and ids as scalar-or-null values, so composite
values are carried as raw text. -/
inductive Json where
  | null
  | bool (b : Bool)
  | num (n : Int)
  | str (s : String)
  | raw (text : String)
  deriving DecidableEq

/-- A Go error value, as observed by errResp (handler.go 355-370).
`message` is the result of Error(); `asErrWithFields` is the outcome of
errors.As(err, &se) for the ErrWithFields capability: when the error chain
contains a structured error, it carries that errors Error() string and its
Fields() mapping. -/
structure GoError where
  message : String
  asErrWithFields : Option (String × List (String × Json))
  deriving DecidableEq

/-- The value stored in Error.Data (an interface in Go): unset (nil), a plain
error message string, or the structuredErrorData record built by errResp
(handler.go 265-268, 363-366). -/
inductive ErrorData where
  | null
  | str (s : String)
  | structured (error : String) (context : List (String × Json))
  deriving DecidableEq

/-- Error describes JSON-RPC error structure (handler.go 140-144). -/
structure Error where
  Code : Int
  Message : String
  Data : ErrorData
  deriving DecidableEq

/-- Request is a JSON-RPC request item after json.Unmarshal (handler.go
124-129).  Params models the json.RawMessage field: none is a nil raw
message (absent field).  ID models the *interface pointer: none is a nil
pointer. -/
structure Request where
  JSONRPC : String
  Method : String
  Params : Option Json
  ID : Option Json
  deriving DecidableEq

/-- Response is a JSON-RPC response item (handler.go 132-137).  Result none
models an unset (omitted) result; ID none models a nil pointer, which is
serialized as id null (the field has no omitempty tag). -/
structure Response where
  JSONRPC : String
  Result : Option Json
  Error : Option Error
  ID : Option Json
  deriving DecidableEq

/-- Standard error codes (handler.go 21-27). -/
def CodeParseError : Int := -32700

def CodeInvalidRequest : Int := -32600

def CodeMethodNotFound : Int := -32601

def CodeInvalidParams : Int := -32602

def CodeInternalError : Int := -32603

/-- const ver = "2.0" (handler.go 29). -/
def ver : String := "2.0"

/-- Observable dispatch events, used to state which code ran: a read of
h.methods[name] (entry of invoke), a call of m.useCase.Interact (business
logic fires), and a call of m.failingUseCase.Interact with the injected
error (the middleware pass-through for decode / validation failures). -/
inductive Event where
  | lookup (name : String)
  | interact (name : String)
  | failInteract (name : String) (err : GoError)
  deriving DecidableEq

/-- A use case interactor: Interact(ctx, input, output).  The first argument
models the error carried in the context under errCtxKey (ctx.Value), used
only by the failing use case; the second the decoded input (nil interface
when the method has no input port).  The result is the returned error, or
the contents written to the output buffer. -/
structure Interactor where
  Interact : Option GoError → Option Json → Except GoError Json

/-- A use case middleware (usecase.Middleware): wraps an interactor. -/
def Middleware := Interactor → Interactor

/-- usecase.Wrap: decorates an interactor with middlewares so that the first
middleware in the list becomes the outermost wrapper. -/
def Wrap (i : Interactor) (mws : List Middleware) : Interactor :=
  mws.foldr (fun mw acc => mw acc) i

/-- The base failing use case installed by Add (handler.go 99-101): returns
the error carried in the context.  The type assertion
ctx.Value(errCtxKey).(error) panics when the context holds no error; that
path is never exercised (the failing use case is only ever called with an
error in the context) and is modelled by a panic-shaped error value. -/
def failingBase : Interactor :=
  { Interact := fun ctxErr _ =>
      match ctxErr with
      | some e => .error e
      | none => .error { message := "interface conversion: interface is nil, not error", asErrWithFields := none } }

/-- A registered method entry (handler.go 43-51).  inputBufferType models the
reflected input port type by the json.Unmarshal behaviour of that type on a
JSON value (present iff the use case has an input port); outputBufferType
likewise models the output port type by its json.Marshal behaviour. -/
structure method where
  failingUseCase : Option Interactor
  useCase : Interactor
  inputBufferType : Option (Json → Except GoError Json)
  outputBufferType : Option (Json → Except GoError Json)

/-- The Validator contract (part_005): ValidateParams / ValidateResult return
none on success or a validation error. -/
structure Validator where
  ValidateParams : String → Option Json → Option GoError
  ValidateResult : String → Json → Option GoError

/-- A use case interactor as supplied to Add, abstracting the capabilities
probed there: HasName (name is none when usecase.As fails to find the
capability), HasInputPort / HasOutputPort (the ports, as the decode / encode
behaviour of the port types), and Interact itself. -/
structure UseCase where
  name : Option String
  interactor : Interactor
  inputPort : Option (Json → Except GoError Json)
  outputPort : Option (Json → Except GoError Json)

/-- Handler serves JSON-RPC 2.0 methods (handler.go 32-41).  The methods map
is modelled as an association list where the most recent binding shadows the
older ones, matching Go map assignment.  OpenAPI models the external
document collector: some collect when h.OpenAPI is non-nil, the function
being Collect(name, u, ...) returning an error or nil. -/
structure Handler where
  OpenAPI : Option (String → UseCase → Option GoError)
  Validator : Option Validator
  Middlewares : List Middleware
  SkipParamsValidation : Bool
  SkipResultValidation : Bool
  methods : List (String × method)

/-- Go map read h.methods[name]: the most recent binding for the key. -/
def mapLookup (ms : List (String × method)) (k : String) : Option method :=
  (ms.find? (fun p => p.1 == k)).map (fun p => p.2)

/-- The method entry built by Add (handler.go 99-111): both the use case and
the failing use case are wrapped with the handler middlewares
(usecase.Wrap); the input / output buffer types come from probing the use
case ports (setupInputBuffer / setupOutputBuffer). -/
def mkMethod (h : Handler) (u : UseCase) : method :=
  { useCase := Wrap u.interactor h.Middlewares
    failingUseCase := some (Wrap failingBase h.Middlewares)
    inputBufferType := u.inputPort
    outputBufferType := u.outputPort }

/-- Add registers a use case interactor as a JSON-RPC method (handler.go
88-121).  A panic is modelled as none: Add panics when the use case does not
expose the HasName capability, and when the OpenAPI collector is set and
fails.  Registration assigns into the map, silently shadowing any previous
binding of the same name. -/
def Handler.Add (h : Handler) (u : UseCase) : Option Handler :=
  match u.name with
  | none => none
  | some nm =>
    match h.OpenAPI with
    | some collect =>
      match collect nm u with
      | some _ => none
      | none => some { h with methods := (nm, mkMethod h u) :: h.methods }
    | none => some { h with methods := (nm, mkMethod h u) :: h.methods }

/-- The syntax error json.Unmarshal reports on empty input: a nil
json.RawMessage (absent params) makes json.Unmarshal(req.Params, input)
fail with this error before looking at the target type. -/
def jsonUnexpectedEnd : GoError :=
  { message := "unexpected end of JSON input", asErrWithFields := none }

/-- json.Unmarshal(req.Params, input) (handler.go 330): a nil raw message
always fails with a syntax error; otherwise the outcome is that of the
input-buffer type decoder on the params value. -/
def unmarshalParams (dec : Json → Except GoError Json) :
    Option Json → Except GoError Json
  | none => .error jsonUnexpectedEnd
  | some v => dec v

/-- err = m.failingUseCase.Interact(context.WithValue(ctx, errCtxKey, err),
nil, nil): the wrapped failing use case applied to the injected error; a nil
returned error is none. -/
def runFailing (fu : Interactor) (err : GoError) : Option GoError :=
  match fu.Interact (some err) none with
  | .error e => some e
  | .ok _ => none

/-- The failing-use-case pass-through guarded by m.failingUseCase != nil
(handler.go 331-333, 342-344, 316-318), together with its trace event. -/
def passFailing (m : method) (name : String) (err : GoError) :
    Option GoError × List Event :=
  match m.failingUseCase with
  | some fu => (runFailing fu err, [Event.failInteract name err])
  | none => (some err, [])

/-- The Data computation of errResp (handler.go 361-369): a structured error
found by errors.As is preserved as structuredErrorData, any other non-nil
error degrades to its message string, a nil error leaves Data unset. -/
def errDataOf : Option GoError → ErrorData
  | some e =>
    match e.asErrWithFields with
    | some (semsg, sectx) => ErrorData.structured semsg sectx
    | none => ErrorData.str e.message
  | none => ErrorData.null

/-- errResp (handler.go 355-370): sets resp.Error to the given code and
message, with Data as errDataOf. -/
def errResp (resp : Response) (msg : String) (code : Int)
    (err : Option GoError) : Response :=
  { resp with Error := some { Code := code, Message := msg, Data := errDataOf err } }

/-- h.decode (handler.go 329-353): unmarshal params into the input buffer,
then run parameter validation when a validator is configured and not
skipped.  Returns the updated response, the decoded input on success (none
models the false return), and the trace events. -/
def Handler.decode (h : Handler) (m : method) (req : Request)
    (resp : Response) (dec : Json → Except GoError Json) :
    Response × Option Json × List Event :=
  match unmarshalParams dec req.Params with
  | .error err =>
    (errResp resp ("failed to unmarshal parameters") CodeInvalidParams
        (passFailing m req.Method err).1,
      none, (passFailing m req.Method err).2)
  | .ok input =>
    match h.Validator with
    | some v =>
      if h.SkipParamsValidation then (resp, some input, [])
      else
        match v.ValidateParams req.Method req.Params with
        | some err =>
          (errResp resp ("invalid parameters") CodeInvalidParams
              (passFailing m req.Method err).1,
            none, (passFailing m req.Method err).2)
        | none => (resp, some input, [])
    | none => (resp, some input, [])

/-- json.Marshal(output) (handler.go 304): when no output buffer was
allocated the nil interface marshals to null; otherwise the output-buffer
type marshaller is applied to the buffer contents. -/
def method.marshalOutput (m : method) (output : Option Json) :
    Except GoError Json :=
  match m.outputBufferType, output with
  | some mar, some v => mar v
  | _, _ => .ok Json.null

/-- h.encode (handler.go 303-327): marshal the output, optionally validate
the result bytes (with the failing-use-case pass-through on failure), and on
success store them in resp.Result. -/
def Handler.encode (h : Handler) (m : method) (req : Request)
    (resp : Response) (output : Option Json) : Response × List Event :=
  match m.marshalOutput output with
  | .error err =>
    ({ resp with Error := some { Code := CodeInternalError,
                                 Message := "failed to marshal result: " ++ err.message,
                                 Data := ErrorData.null } }, [])
  | .ok data =>
    match h.Validator with
    | some v =>
      if h.SkipResultValidation then ({ resp with Result := some data }, [])
      else
        match v.ValidateResult req.Method data with
        | some err =>
          (errResp resp ("invalid result") CodeInternalError
              (passFailing m req.Method err).1,
            (passFailing m req.Method err).2)
        | none => ({ resp with Result := some data }, [])
    | none => ({ resp with Result := some data }, [])

/-- The tail of invoke after decoding (handler.go 290-300): allocate the
output buffer when the method has an output port, call the business logic,
map a returned error to an internal-error response, otherwise encode. -/
def Handler.invokeUseCase (h : Handler) (m : method) (req : Request)
    (resp : Response) (input : Option Json) : Response × List Event :=
  match m.useCase.Interact none input with
  | .error err =>
    (errResp resp ("operation failed") CodeInternalError (some err),
      [Event.interact req.Method])
  | .ok outVal =>
    match m.outputBufferType with
    | some _ =>
      ((h.encode m req resp (some outVal)).1,
        Event.interact req.Method :: (h.encode m req resp (some outVal)).2)
    | none =>
      ((h.encode m req resp none).1,
        Event.interact req.Method :: (h.encode m req resp none).2)

/-- h.invoke (handler.go 270-301): method lookup, input decoding and the
business-logic call, threading the response record. -/
def Handler.invoke (h : Handler) (req : Request) (resp : Response) :
    Response × List Event :=
  match mapLookup h.methods req.Method with
  | none =>
    ({ resp with Error := some { Code := CodeMethodNotFound,
                                 Message := "method not found: " ++ req.Method,
                                 Data := ErrorData.null } }, [Event.lookup req.Method])
  | some m =>
    match m.inputBufferType with
    | some dec =>
      match h.decode m req resp dec with
      | (respD, none, evs) => (respD, Event.lookup req.Method :: evs)
      | (respD, some input, evs) =>
        ((h.invokeUseCase m req respD (some input)).1,
          Event.lookup req.Method ::
            (evs ++ (h.invokeUseCase m req respD (some input)).2))
    | none =>
      ((h.invokeUseCase m req resp none).1,
        Event.lookup req.Method :: (h.invokeUseCase m req resp none).2)

/-- fmt %q formatting of a version string (handler.go 188, 238), for strings
without escape-worthy characters. -/
def goQuote (s : String) : String := "\"" ++ s ++ "\""

/-- h.fail (handler.go 372-394): writes a fresh top-level error response
whose ID field is never assigned (serialized as id null). -/
def failResp (msg : String) (code : Int) : Response :=
  { JSONRPC := ver, Result := none,
    Error := some { Code := code, Message := msg, Data := ErrorData.null },
    ID := none }

/-- The single-request path of ServeHTTP after the body has been
unmarshalled into a Request (handler.go 173-208): copy the id, enforce the
protocol version (mismatch goes through h.fail), dispatch, and write the
response only when the request carried a non-nil id.  Returns the response
written to the wire (none when nothing is written) and the dispatch trace. -/
def Handler.serveSingle (h : Handler) (req : Request) :
    Option Response × List Event :=
  let resp : Response :=
    { JSONRPC := ver, Result := none, Error := none, ID := req.ID }
  if req.JSONRPC ≠ ver then
    (some (failResp ("invalid jsonrpc value: " ++ goQuote req.JSONRPC)
        CodeInvalidRequest), [])
  else
    if req.ID.isNone then (none, (h.invoke req resp).2)
    else ((h.invoke req resp).1, (h.invoke req resp).2)

/-- encoding/json unmarshalling of the wire id field into the *interface
pointer (handler.go 128): an absent field leaves the pointer nil, and, per
the documented encoding/json rule for pointers, a literal null also sets the
pointer to nil; any other value is stored. -/
def unmarshalID : Option Json → Option Json
  | none => none
  | some Json.null => none
  | some v => some v

/-- One iteration of the serveBatch loop for one element (handler.go
224-249): the final contents of the per-element response record, whether its
pointer was appended to resps (req.ID != nil), and the events of its
dispatch goroutine (empty when the version mismatches: the loop continues
without spawning the goroutine). -/
def Handler.batchItem (h : Handler) (req : Request) :
    Response × Bool × List Event :=
  let resp0 : Response :=
    { JSONRPC := ver, Result := none, Error := none, ID := none }
  let resp1 := if req.ID.isSome then { resp0 with ID := req.ID } else resp0
  if req.JSONRPC ≠ ver then
    ({ resp1 with Error := some { Code := CodeInvalidRequest,
                                  Message := "invalid jsonrpc value: " ++ goQuote req.JSONRPC,
                                  Data := ErrorData.null } }, req.ID.isSome, [])
  else
    ((h.invoke req resp1).1, req.ID.isSome, (h.invoke req resp1).2)

/-- The number of wg.Done() calls that ever happen for a batch: one per
spawned goroutine, that is one per element whose protocol version matches
(handler.go 244-248); a version-mismatched element skips the goroutine via
continue, without a Done. -/
def batchDones (reqs : List Request) : Nat :=
  (reqs.filter (fun r => r.JSONRPC == ver)).length

/-- wg.Wait() (handler.go 251) returns iff the counter set by
wg.Add(len(reqs)) (handler.go 220) is fully consumed by Done calls. -/
def batchWaitCompletes (reqs : List Request) : Bool :=
  reqs.length == batchDones reqs

/-- serveBatch after the outer array was unmarshalled (handler.go 219-263):
every element is processed by one loop iteration; the response list is
serialized only if wg.Wait() returns (otherwise the handler blocks forever
and nothing is written).  The trace collects the events of the spawned
goroutines, listed per element in input order. -/
def Handler.serveBatch (h : Handler) (reqs : List Request) :
    Option (List Response) × List Event :=
  let items := reqs.map h.batchItem
  let evs := (items.map (fun i => i.2.2)).flatten
  if batchWaitCompletes reqs then
    (some ((items.filter (fun i => i.2.1)).map (fun i => i.1)), evs)
  else
    (none, evs)

/-- decode only touches the Error field of the response record: the JSONRPC
and ID fields set by the caller survive every branch. -/
theorem decode_frame (h : Handler) (m : method) (req : Request)
    (resp : Response) (dec : Json → Except GoError Json) :
    (h.decode m req resp dec).1.JSONRPC = resp.JSONRPC ∧
      (h.decode m req resp dec).1.ID = resp.ID := by
  unfold Handler.decode
  repeat' split
  all_goals exact ⟨rfl, rfl⟩

/-- encode only touches the Result and Error fields of the response record. -/
theorem encode_frame (h : Handler) (m : method) (req : Request)
    (resp : Response) (output : Option Json) :
    (h.encode m req resp output).1.JSONRPC = resp.JSONRPC ∧
      (h.encode m req resp output).1.ID = resp.ID := by
  unfold Handler.encode
  repeat' split
  all_goals exact ⟨rfl, rfl⟩

/-- The business-logic call and result encoding only touch Result and
Error. -/
theorem invokeUseCase_frame (h : Handler) (m : method) (req : Request)
    (resp : Response) (input : Option Json) :
    (h.invokeUseCase m req resp input).1.JSONRPC = resp.JSONRPC ∧
      (h.invokeUseCase m req resp input).1.ID = resp.ID := by
  unfold Handler.invokeUseCase
  repeat' split
  · exact ⟨rfl, rfl⟩
  all_goals exact encode_frame h m req resp _

/-- invoke only assigns the Result and Error fields of the response: the
JSONRPC and ID fields set by the caller are unchanged on every branch. -/
theorem invoke_frame (h : Handler) (req : Request) (resp : Response) :
    (h.invoke req resp).1.JSONRPC = resp.JSONRPC ∧
      (h.invoke req resp).1.ID = resp.ID := by
  unfold Handler.invoke
  split
  · exact ⟨rfl, rfl⟩
  next m _ =>
    split
    next dec _ =>
      split
      next respD evs heq =>
        have hd := decode_frame h m req resp dec
        rw [heq] at hd
        exact hd
      next respD input evs heq =>
        have hd := decode_frame h m req resp dec
        rw [heq] at hd
        have hu := invokeUseCase_frame h m req respD (some input)
        exact ⟨hu.1.trans hd.1, hu.2.trans hd.2⟩
    next _ =>
      exact invokeUseCase_frame h m req resp none

/-- A batch element is appended to resps exactly when it carries a non-nil
id. -/
theorem batchItem_appended (h : Handler) (r : Request) :
    (h.batchItem r).2.1 = r.ID.isSome := by
  simp only [Handler.batchItem]
  split <;> rfl

/-- The final per-element response record carries the id of its request. -/
theorem batchItem_ID (h : Handler) (r : Request) :
    (h.batchItem r).1.ID = r.ID := by
  simp only [Handler.batchItem]
  cases hid : r.ID with
  | none =>
    simp only [hid, Option.isSome_none, Bool.false_eq_true, if_false]
    split
    · rfl
    · exact (invoke_frame h r _).2
  | some v =>
    simp only [hid, Option.isSome_some, if_true]
    split
    · rfl
    · exact ((invoke_frame h r _).2).trans rfl

/-- Every batch trace of invoke starts with the method lookup event. -/
theorem invoke_trace_lookup (h : Handler) (req : Request) (resp : Response) :
    Event.lookup req.Method ∈ (h.invoke req resp).2 := by
  unfold Handler.invoke
  repeat' split
  all_goals simp

/-- A version-matching batch element is dispatched: its goroutine performs
the method lookup. -/
theorem batchItem_trace_lookup (h : Handler) (r : Request)
    (hv : r.JSONRPC = ver) :
    Event.lookup r.Method ∈ (h.batchItem r).2.2 := by
  simp only [Handler.batchItem]
  rw [if_neg (not_not_intro hv)]
  exact invoke_trace_lookup h r _

/-- The responses collected by serveBatch are exactly the per-element
records of the id-bearing elements, in input order. -/
theorem batch_responses (h : Handler) (reqs : List Request) :
    ((reqs.map h.batchItem).filter (fun i => i.2.1)).map (fun i => i.1) =
      (reqs.filter (fun r => r.ID.isSome)).map (fun r => (h.batchItem r).1) := by
  induction reqs with
  | nil => rfl
  | cons r rs ih =>
    simp only [List.map_cons, List.filter_cons, batchItem_appended]
    cases hs : r.ID.isSome <;> simp [hs, ih]

/-- wg.Wait() returns when every element of the batch carries the matching
protocol version (each spawned goroutine contributes its Done). -/
theorem batchWait_of_all_ver (reqs : List Request)
    (hall : ∀ r ∈ reqs, r.JSONRPC = ver) :
    batchWaitCompletes reqs = true := by
  unfold batchWaitCompletes batchDones
  have hfe : reqs.filter (fun r => r.JSONRPC == ver) = reqs := by
    apply List.filter_eq_self.mpr
    intro r hr
    exact beq_iff_eq.mpr (hall r hr)
  rw [hfe]
  simp

/-- For a batch whose elements all carry the matching protocol version, the
join completes and the serialized array is the ordered list of per-element
records of the id-bearing elements. -/
theorem serveBatch_all_ver (h : Handler) (reqs : List Request)
    (hall : ∀ r ∈ reqs, r.JSONRPC = ver) :
    (h.serveBatch reqs).1 =
      some ((reqs.filter (fun r => r.ID.isSome)).map (fun r => (h.batchItem r).1)) := by
  simp only [Handler.serveBatch]
  rw [batchWait_of_all_ver reqs hall]
  simp only [if_true]
  rw [batch_responses]

/-- Whenever serveBatch serializes an output array, the array has exactly
one entry per id-bearing element of the batch. -/
theorem serveBatch_length (h : Handler) (reqs : List Request)
    (out : List Response) (hout : (h.serveBatch reqs).1 = some out) :
    out.length = (reqs.filter (fun r => r.ID.isSome)).length := by
  simp only [Handler.serveBatch] at hout
  split at hout
  · have hsome := Option.some.inj hout
    rw [← hsome, batch_responses, List.length_map]
  · exact absurd hout (by simp)

/-- Every dispatched element of a batch leaves its method lookup in the
batch trace. -/
theorem serveBatch_trace (h : Handler) (reqs : List Request) (r : Request)
    (hr : r ∈ reqs) (hv : r.JSONRPC = ver) :
    Event.lookup r.Method ∈ (h.serveBatch reqs).2 := by
  simp only [Handler.serveBatch]
  have hmem : Event.lookup r.Method ∈
      ((reqs.map h.batchItem).map (fun i => i.2.2)).flatten := by
    rw [List.mem_flatten]
    exact ⟨(h.batchItem r).2.2,
      List.mem_map_of_mem _ (List.mem_map_of_mem h.batchItem hr),
      batchItem_trace_lookup h r hv⟩
  split <;> exact hmem

/-- A handler with no registered methods, no validator, no middlewares and
no OpenAPI collector. -/
def hNoMethods : Handler :=
  { OpenAPI := none, Validator := none, Middlewares := [],
    SkipParamsValidation := false, SkipResultValidation := false,
    methods := [] }

/-- An echo business logic: copies the decoded input to the output buffer. -/
def echoInteractor : Interactor :=
  { Interact := fun _ input => .ok (input.getD Json.null) }

/-- An echo use case: named, with input and output ports of plain data
shapes whose decode and encode never fail on a JSON value. -/
def echoUseCase : UseCase :=
  { name := some ("echo"), interactor := echoInteractor,
    inputPort := some (fun j => Except.ok j),
    outputPort := some (fun j => Except.ok j) }

/-- hNoMethods with the echo use case registered. -/
def hEcho : Handler :=
  { hNoMethods with
    methods := [(("echo" : String), mkMethod hNoMethods echoUseCase)] }

/-- The response record as initialized by the single-request path before
dispatch: id copied from the request, version set. -/
def respInit (req : Request) : Response :=
  { JSONRPC := ver, Result := none, Error := none, ID := req.ID }

/-- Shared shape of the decode-failure path of invoke: when the method is
found, has an input buffer, and unmarshalling params fails, invoke reports
InvalidParams with the unmarshal message, the data built from the error
after the failing-use-case pass-through, and a trace of exactly the lookup
and the failing-use-case call. -/
theorem invoke_decode_failure (h : Handler) (m : method) (fu : Interactor)
    (dec : Json → Except GoError Json) (req : Request) (resp : Response)
    (e : GoError)
    (hm : mapLookup h.methods req.Method = some m)
    (hin : m.inputBufferType = some dec)
    (hfu : m.failingUseCase = some fu)
    (hfail : unmarshalParams dec req.Params = .error e) :
    h.invoke req resp =
      (errResp resp ("failed to unmarshal parameters") CodeInvalidParams
          (runFailing fu e),
        [Event.lookup req.Method, Event.failInteract req.Method e]) := by
  have hdec : h.decode m req resp dec =
      (errResp resp ("failed to unmarshal parameters") CodeInvalidParams
          (runFailing fu e),
        none, [Event.failInteract req.Method e]) := by
    unfold Handler.decode
    rw [hfail]
    dsimp only
    unfold passFailing
    rw [hfu]
  unfold Handler.invoke
  rw [hm]
  dsimp only
  rw [hin]
  dsimp only
  rw [hdec]

/-- The batch element of the C1 failing input: protocol version "1.0". -/
def reqVer10 : Request :=
  { JSONRPC := "1.0", Method := "sum", Params := none,
    ID := some (Json.num 1) }

/-- C1: the claim says every batch element is processed — a
version-mismatched element getting a locally synthesized InvalidRequest
error without a dispatcher call — and that the wait-for-all join completes,
so one output array is serialized even with a mismatched element present.
The code violates the second half: wg.Add counts every element, but a
version-mismatched element leaves the loop through continue without
spawning the goroutine that would call wg.Done, so wg.Wait() never returns
and nothing is serialized — even though the element did receive its locally
synthesized error entry and its goroutine trace is empty (no dispatch). -/
theorem C1_batch_version_mismatch_blocks :
    batchWaitCompletes [reqVer10] = false ∧
    (hNoMethods.serveBatch [reqVer10]).1 = none ∧
    (hNoMethods.batchItem reqVer10).1.Error =
      some { Code := CodeInvalidRequest,
             Message := "invalid jsonrpc value: \"1.0\"",
             Data := ErrorData.null } ∧
    (hNoMethods.batchItem reqVer10).2.2 = [] := by
  decide

/-- A wire request whose id field is present with the JSON value null, after
unmarshalling. -/
def reqNullID : Request :=
  { JSONRPC := ver, Method := "echo", Params := some (Json.num 1),
    ID := unmarshalID (some Json.null) }

/-- C2: the claim says a request with id present-but-null always produces a
response entry with id null, distinct from an absent id.  The code violates
this: unmarshalling the literal null into the *interface id pointer sets
the pointer to nil, indistinguishable from an absent id, so the request is
treated as a notification — it is dispatched (the handler fires), but no
response is written in single mode and no entry is appended in batch mode. -/
theorem C2_null_id_is_notification :
    unmarshalID (some Json.null) = none ∧
    (hEcho.serveSingle reqNullID).1 = none ∧
    (hEcho.batchItem reqNullID).2.1 = false ∧
    Event.interact ("echo") ∈ (hEcho.serveSingle reqNullID).2 := by
  decide

/-- C10: invoke, together with its decode, encode and error-reporting
sub-steps, assigns only the Result and Error fields of the response record;
the JSONRPC and ID fields set by the caller before invocation are unchanged
when invoke returns. -/
theorem C10_invoke_preserves_frame (h : Handler) (req : Request)
    (resp : Response) :
    (h.invoke req resp).1.JSONRPC = resp.JSONRPC ∧
      (h.invoke req resp).1.ID = resp.ID :=
  invoke_frame h req resp

/-- C3 counterexample: a single request with absent id and mismatched
protocol version.  The claim says a request missing id never produces a
response entry on any path, the version-mismatch path included; the code
emits a top-level InvalidRequest error response (with id null) through
h.fail. -/
theorem C3_counterexample :
    ((hNoMethods.serveSingle
        { JSONRPC := "1.0", Method := "m", Params := none, ID := none }).1).isSome = true ∧
    (hNoMethods.serveSingle
        { JSONRPC := "1.0", Method := "m", Params := none, ID := none }).1 =
      some (failResp ("invalid jsonrpc value: \"1.0\"") CodeInvalidRequest) := by
  decide

/-- C3 (amended): a request with absent id produces no response entry on any
dispatch path — single mode with matching version, and batch mode, where
such an element is never appended to the output and the output length counts
only id-bearing elements — but in single mode a protocol-version mismatch is
reported through the top-level fail path, which emits an error response with
id null even for an id-less request. -/
theorem C3_absent_id (h : Handler) (req : Request) (hid : req.ID = none) :
    (req.JSONRPC = ver → (h.serveSingle req).1 = none) ∧
    (req.JSONRPC ≠ ver →
      (h.serveSingle req).1 =
        some (failResp ("invalid jsonrpc value: " ++ goQuote req.JSONRPC)
          CodeInvalidRequest)) ∧
    (h.batchItem req).2.1 = false ∧
    (∀ reqs out, (h.serveBatch reqs).1 = some out →
      out.length = (reqs.filter (fun r => r.ID.isSome)).length) := by
  refine ⟨?_, ?_, ?_, ?_⟩
  · intro hv
    simp only [Handler.serveSingle]
    rw [if_neg (not_not_intro hv)]
    simp [hid]
  · intro hv
    simp only [Handler.serveSingle]
    rw [if_pos hv]
  · rw [batchItem_appended, hid]
    rfl
  · intro reqs out hout
    exact serveBatch_length h reqs out hout

/-- A notification: matching version, absent id. -/
def reqNotif : Request :=
  { JSONRPC := ver, Method := "echo", Params := some (Json.num 2), ID := none }

/-- Witness for C3_absent_id at a concrete id-less request. -/
theorem C3_absent_id_witness :
    (hEcho.serveSingle reqNotif).1 = none :=
  (C3_absent_id hEcho reqNotif rfl).1 rfl

/-- A well-formed id-bearing request for batch fixtures. -/
def reqOk2 : Request :=
  { JSONRPC := ver, Method := "echo", Params := some (Json.num 3),
    ID := some (Json.num 2) }

/-- A version-mismatched id-bearing batch element. -/
def reqVer10b : Request :=
  { JSONRPC := "1.0", Method := "echo", Params := none,
    ID := some (Json.num 3) }

/-- C4 counterexample: a batch holding one well-formed element and one
version-mismatched element.  The claim says the serialized output array has
exactly one entry per id-bearing element in input order; the code serializes
nothing at all for this batch, because the join never completes. -/
theorem C4_counterexample :
    (hEcho.serveBatch [reqOk2, reqVer10b]).1 = none := by
  decide

/-- C4 (amended): for every batch whose elements all carry protocol version
"2.0", the serialized output array has exactly one entry per id-bearing
element, in the original input order (the output ids echo the id-bearing
requests in order — the functional model is completion-order independent by
construction, each goroutine writing only its own record), and every
element, notifications included, is dispatched; notifications contribute no
output entry.  When some element carries a mismatched version, the join
never completes and nothing is serialized. -/
theorem C4_batch_order (h : Handler) (reqs : List Request)
    (hall : ∀ r ∈ reqs, r.JSONRPC = ver) :
    (h.serveBatch reqs).1 =
      some ((reqs.filter (fun r => r.ID.isSome)).map (fun r => (h.batchItem r).1)) ∧
    ((reqs.filter (fun r => r.ID.isSome)).map (fun r => (h.batchItem r).1)).map
        (fun resp => resp.ID) =
      (reqs.filter (fun r => r.ID.isSome)).map (fun r => r.ID) ∧
    (∀ r ∈ reqs, Event.lookup r.Method ∈ (h.serveBatch reqs).2) := by
  refine ⟨serveBatch_all_ver h reqs hall, ?_, ?_⟩
  · rw [List.map_map]
    apply List.map_congr_left
    intro r _
    exact batchItem_ID h r
  · intro r hr
    exact serveBatch_trace h reqs r hr (hall r hr)

/-- Witness for C4_batch_order: a concrete batch of one id-bearing request
and one notification. -/
theorem C4_batch_order_witness :
    (hEcho.serveBatch [reqOk2, reqNotif]).1 =
      some (([reqOk2, reqNotif].filter (fun r => r.ID.isSome)).map
        (fun r => (hEcho.batchItem r).1)) ∧
    (([reqOk2, reqNotif].filter (fun r => r.ID.isSome)).map
        (fun r => (hEcho.batchItem r).1)).map (fun resp => resp.ID) =
      ([reqOk2, reqNotif].filter (fun r => r.ID.isSome)).map (fun r => r.ID) :=
  ⟨(C4_batch_order hEcho [reqOk2, reqNotif] (by decide)).1,
   (C4_batch_order hEcho [reqOk2, reqNotif] (by decide)).2.1⟩

/-- C5: a parameter decode failure for a dispatched request to a registered
input-bearing method yields code -32602 with message "failed to unmarshal
parameters" — never -32603 — with the decode error first passed through the
failing use case (so middleware observes it, as the trace records) and the
response data built from the possibly transformed error. -/
theorem C5_decode_failure (h : Handler) (m : method) (fu : Interactor)
    (dec : Json → Except GoError Json) (req : Request) (resp : Response)
    (e : GoError)
    (hm : mapLookup h.methods req.Method = some m)
    (hin : m.inputBufferType = some dec)
    (hfu : m.failingUseCase = some fu)
    (hfail : unmarshalParams dec req.Params = .error e) :
    (h.invoke req resp).1.Error =
      some { Code := CodeInvalidParams,
             Message := "failed to unmarshal parameters",
             Data := errDataOf (runFailing fu e) } ∧
    CodeInvalidParams = -32602 ∧
    CodeInvalidParams ≠ CodeInternalError ∧
    (h.invoke req resp).2 =
      [Event.lookup req.Method, Event.failInteract req.Method e] := by
  have hx := invoke_decode_failure h m fu dec req resp e hm hin hfu hfail
  refine ⟨?_, rfl, by decide, ?_⟩
  · rw [hx]
    rfl
  · rw [hx]

/-- The decode error of the strict fixture method. -/
def eDecode : GoError :=
  { message := "cannot unmarshal string into int field",
    asErrWithFields := none }

/-- A use case whose input shape rejects every params value. -/
def strictUseCase : UseCase :=
  { name := some ("strict"), interactor := echoInteractor,
    inputPort := some (fun _ => Except.error eDecode), outputPort := none }

/-- hNoMethods with the strict use case registered. -/
def hStrict : Handler :=
  { hNoMethods with
    methods := [(("strict" : String), mkMethod hNoMethods strictUseCase)] }

/-- A request whose params do not decode into the strict input shape. -/
def reqStrict : Request :=
  { JSONRPC := ver, Method := "strict", Params := some (Json.str "x"),
    ID := some (Json.num 7) }

/-- Witness for C5_decode_failure at a concrete failing decode. -/
theorem C5_decode_failure_witness :
    (hStrict.invoke reqStrict (respInit reqStrict)).1.Error =
      some { Code := CodeInvalidParams,
             Message := "failed to unmarshal parameters",
             Data := errDataOf (runFailing (Wrap failingBase hNoMethods.Middlewares) eDecode) } ∧
    CodeInvalidParams = -32602 ∧
    CodeInvalidParams ≠ CodeInternalError ∧
    (hStrict.invoke reqStrict (respInit reqStrict)).2 =
      [Event.lookup ("strict"), Event.failInteract ("strict") eDecode] :=
  C5_decode_failure hStrict (mkMethod hNoMethods strictUseCase)
    (Wrap failingBase hNoMethods.Middlewares) (fun _ => Except.error eDecode)
    reqStrict (respInit reqStrict) eDecode rfl rfl rfl rfl

/-- C6: a single request whose jsonrpc field differs from "2.0" is answered
with the InvalidRequest error (-32600) through the top-level fail path, and
nothing is dispatched: the trace is empty, so no method lookup happens and
no registered handler can fire an observable side effect. -/
theorem C6_version_mismatch (h : Handler) (req : Request)
    (hv : req.JSONRPC ≠ ver) :
    h.serveSingle req =
      (some (failResp ("invalid jsonrpc value: " ++ goQuote req.JSONRPC)
          CodeInvalidRequest), []) ∧
    (failResp ("invalid jsonrpc value: " ++ goQuote req.JSONRPC)
        CodeInvalidRequest).Error =
      some { Code := -32600,
             Message := "invalid jsonrpc value: " ++ goQuote req.JSONRPC,
             Data := ErrorData.null } := by
  constructor
  · simp only [Handler.serveSingle]
    rw [if_pos hv]
  · rfl

/-- Witness for C6_version_mismatch at a concrete version "1.0" request
against a handler with a registered method. -/
theorem C6_version_mismatch_witness :
    hEcho.serveSingle
        { JSONRPC := "1.0", Method := "echo", Params := some (Json.num 1),
          ID := some (Json.num 9) } =
      (some (failResp ("invalid jsonrpc value: " ++ goQuote ("1.0"))
          CodeInvalidRequest), []) :=
  (C6_version_mismatch hEcho
    { JSONRPC := "1.0", Method := "echo", Params := some (Json.num 1),
      ID := some (Json.num 9) } (by decide)).1

/-- A use case exposing the name capability with an empty name string. -/
def emptyNameUseCase : UseCase :=
  { name := some (""), interactor := echoInteractor,
    inputPort := none, outputPort := none }

/-- C7 counterexample: the claim says registration fails fatally when the
supplied use case name is empty or missing.  The code only panics when the
HasName capability is missing entirely (usecase.As fails, a type-level
check); a use case whose Name() returns the empty string registers without
panicking, under the empty-string key. -/
theorem C7_counterexample :
    (hNoMethods.Add emptyNameUseCase).isSome = true ∧
    hNoMethods.Add emptyNameUseCase =
      some { hNoMethods with
             methods := [(("" : String), mkMethod hNoMethods emptyNameUseCase)] } ∧
    (mapLookup
        [(("" : String), mkMethod hNoMethods emptyNameUseCase)] ("")).isSome = true :=
  ⟨rfl, rfl, rfl⟩

/-- C7 (amended): Add fails fatally only when the use case does not expose
the name capability at all; when a name is present — the empty string
included — and the OpenAPI collector is absent, registration succeeds by
assigning the entry into the map, so a second registration under an existing
name silently shadows the previous entry (last registration wins) and every
other name still resolves as before. -/
theorem C7_add_semantics (h : Handler) (u : UseCase) :
    (u.name = none → h.Add u = none) ∧
    (∀ nm, u.name = some nm → h.OpenAPI = none →
      h.Add u = some { h with methods := (nm, mkMethod h u) :: h.methods } ∧
      mapLookup ((nm, mkMethod h u) :: h.methods) nm = some (mkMethod h u) ∧
      (∀ k, k ≠ nm →
        mapLookup ((nm, mkMethod h u) :: h.methods) k = mapLookup h.methods k)) := by
  constructor
  · intro hn
    unfold Handler.Add
    rw [hn]
  · intro nm hn hoa
    refine ⟨?_, ?_, ?_⟩
    · unfold Handler.Add
      rw [hn]
      dsimp only
      rw [hoa]
    · unfold mapLookup
      simp [List.find?]
    · intro k hk
      unfold mapLookup
      simp only [List.find?]
      rw [show (nm == k) = false from beq_eq_false_iff_ne.mpr (Ne.symm hk)]

/-- The first use case registered under the duplicated name. -/
def firstUseCase : UseCase :=
  { name := some ("dup"), interactor := echoInteractor,
    inputPort := none, outputPort := none }

/-- The second use case registered under the same name. -/
def secondUseCase : UseCase :=
  { name := some ("dup"),
    interactor := { Interact := fun _ _ => Except.ok (Json.num 2) },
    inputPort := none, outputPort := some (fun j => Except.ok j) }

/-- The handler after the first registration. -/
def hFirst : Handler :=
  { hNoMethods with
    methods := [(("dup" : String), mkMethod hNoMethods firstUseCase)] }

/-- Witness for C7_add_semantics: re-registering under an existing name
succeeds and the name now resolves to the new entry. -/
theorem C7_add_semantics_witness :
    hFirst.Add secondUseCase =
      some { hFirst with
             methods := (("dup" : String), mkMethod hFirst secondUseCase) :: hFirst.methods } ∧
    mapLookup ((("dup" : String), mkMethod hFirst secondUseCase) :: hFirst.methods)
        ("dup") = some (mkMethod hFirst secondUseCase) :=
  ⟨((C7_add_semantics hFirst secondUseCase).2 ("dup") rfl rfl).1,
   ((C7_add_semantics hFirst secondUseCase).2 ("dup") rfl rfl).2.1⟩

/-- C8: an error whose chain exposes the field-level context capability is
written into the wire Error as structuredErrorData, with the structured
error message under error and the field mapping preserved under context;
every other non-nil error degrades to data equal to its plain message
string. -/
theorem C8_errResp_data (resp : Response) (msg : String) (code : Int)
    (e : GoError) (semsg : String) (sectx : List (String × Json)) :
    (e.asErrWithFields = some (semsg, sectx) →
      errResp resp msg code (some e) =
        { resp with Error := some { Code := code, Message := msg,
                                    Data := ErrorData.structured semsg sectx } }) ∧
    (e.asErrWithFields = none →
      errResp resp msg code (some e) =
        { resp with Error := some { Code := code, Message := msg,
                                    Data := ErrorData.str e.message } }) := by
  constructor
  · intro hse
    unfold errResp errDataOf
    dsimp only
    rw [hse]
  · intro hse
    unfold errResp errDataOf
    dsimp only
    rw [hse]

/-- A structured validation error: its chain exposes ErrWithFields. -/
def eFields : GoError :=
  { message := "validation failed",
    asErrWithFields :=
      some (("validation failed",
        [(("params" : String), Json.raw ("[issue a, issue b]"))])) }

/-- A plain error without the field-context capability. -/
def ePlain : GoError := { message := "boom", asErrWithFields := none }

/-- Witness for C8_errResp_data: one structured error preserved into
data.context, one plain error degraded to its message string. -/
theorem C8_errResp_data_witness :
    errResp (respInit reqStrict) ("invalid parameters") CodeInvalidParams
        (some eFields) =
      { respInit reqStrict with
        Error := some { Code := CodeInvalidParams, Message := "invalid parameters",
                        Data := ErrorData.structured ("validation failed")
                          [(("params" : String), Json.raw ("[issue a, issue b]"))] } } ∧
    errResp (respInit reqStrict) ("operation failed") CodeInternalError
        (some ePlain) =
      { respInit reqStrict with
        Error := some { Code := CodeInternalError, Message := "operation failed",
                        Data := ErrorData.str ("boom") } } :=
  ⟨(C8_errResp_data (respInit reqStrict) ("invalid parameters") CodeInvalidParams
      eFields ("validation failed")
      [(("params" : String), Json.raw ("[issue a, issue b]"))]).1 rfl,
   (C8_errResp_data (respInit reqStrict) ("operation failed") CodeInternalError
      ePlain ("") []).2 rfl⟩

/-- C9: for a registered method with an input shape, a request with absent
params (a nil raw message) always fails the decode step — json.Unmarshal of
empty input reports a syntax error before looking at the target type — so an
error response with code -32602 and the unmarshal failure message is
produced, the error passing through the failing use case; params are
effectively mandatory for input-bearing methods. -/
theorem C9_absent_params (h : Handler) (m : method) (fu : Interactor)
    (dec : Json → Except GoError Json) (req : Request) (resp : Response)
    (hm : mapLookup h.methods req.Method = some m)
    (hin : m.inputBufferType = some dec)
    (hfu : m.failingUseCase = some fu)
    (hp : req.Params = none) :
    (h.invoke req resp).1.Error =
      some { Code := CodeInvalidParams,
             Message := "failed to unmarshal parameters",
             Data := errDataOf (runFailing fu jsonUnexpectedEnd) } ∧
    CodeInvalidParams = -32602 := by
  have hfail : unmarshalParams dec req.Params = .error jsonUnexpectedEnd := by
    rw [hp]
    rfl
  have hx := invoke_decode_failure h m fu dec req resp jsonUnexpectedEnd
    hm hin hfu hfail
  constructor
  · rw [hx]
    rfl
  · rfl

/-- A request for the echo method with the params field absent. -/
def reqNoParams : Request :=
  { JSONRPC := ver, Method := "echo", Params := none,
    ID := some (Json.num 4) }

/-- Witness for C9_absent_params at a concrete request with absent params. -/
theorem C9_absent_params_witness :
    (hEcho.invoke reqNoParams (respInit reqNoParams)).1.Error =
      some { Code := CodeInvalidParams,
             Message := "failed to unmarshal parameters",
             Data := errDataOf (runFailing
               (Wrap failingBase hNoMethods.Middlewares) jsonUnexpectedEnd) } ∧
    CodeInvalidParams = -32602 :=
  C9_absent_params hEcho (mkMethod hNoMethods echoUseCase)
    (Wrap failingBase hNoMethods.Middlewares) (fun j => Except.ok j)
    reqNoParams (respInit reqNoParams) rfl rfl rfl rfl

end Jsonrpc
